import Mathlib

/-!
Verification of the media catalog store (split/merge partitioning, folder
management, system-folder initialization, project scoping) against its
natural-language specification.

The data model and every operation below are shallow embeddings of the
TypeScript source in `src/stores/media-store.ts`.  Optional string fields
(`projectId`, `folderId`, `parentId`, `url`, `thumbnailUrl`) are modelled as
`Option String`; JavaScript truthiness of such a field (where both
`undefined`/`null` and the empty string are falsy) is modelled explicitly by
`strTruthy`.  Optional boolean fields (`isSystem`, `isAutoCreated`) are
modelled as `Bool` (absent = `false`), which is faithful because the source
only ever tests their truthiness.
-/

inductive MediaType where
  | image
  | video
  | audio
deriving DecidableEq, Repr

inductive MediaSource where
  | upload
  | aiImage
  | aiVideo
deriving DecidableEq, Repr

inductive MediaFolderCategory where
  | aiImage
  | aiVideo
  | upload
deriving DecidableEq, Repr, Fintype

structure MediaFile where
  id : String
  name : String
  type : MediaType
  url : Option String
  thumbnailUrl : Option String
  duration : Option Nat
  source : MediaSource
  folderId : Option String
  projectId : Option String
deriving DecidableEq, Repr

structure MediaFolder where
  id : String
  name : String
  parentId : Option String
  projectId : Option String
  isSystem : Bool
  isAutoCreated : Bool
  category : Option MediaFolderCategory
  createdAt : Nat
deriving DecidableEq, Repr

/-- The shape persisted per partition (`MediaPersistedState` in the source). -/
structure MediaPersistedState where
  folders : List MediaFolder
  mediaFiles : List MediaFile
deriving DecidableEq, Repr

/-- The in-memory store state (`mediaFiles`, `folders`, `currentFolderId`,
`isLoading` fields of the zustand store). -/
structure MediaState where
  mediaFiles : List MediaFile
  folders : List MediaFolder
  currentFolderId : Option String
  isLoading : Bool
deriving DecidableEq, Repr

theorem MediaPersistedState.ext2 {a b : MediaPersistedState}
    (h1 : a.folders = b.folders) (h2 : a.mediaFiles = b.mediaFiles) : a = b := by
  cases a; cases b; simp_all

theorem MediaState.ext4 {a b : MediaState}
    (h1 : a.mediaFiles = b.mediaFiles) (h2 : a.folders = b.folders)
    (h3 : a.currentFolderId = b.currentFolderId) (h4 : a.isLoading = b.isLoading) : a = b := by
  cases a; cases b; simp_all

/-- JavaScript truthiness of an optional string: `undefined`/`null` and `""`
are falsy, every other string is truthy.  Models tests like `!f.projectId`
and `media.projectId ? _ : _` in the source. -/
def strTruthy : Option String → Bool
  | none => false
  | some s => !(s == "")

/-- Models the JavaScript idiom `x || ''` applied to an optional string
(`f.folderId || ''`, `currentFolderId || ''` in `deleteFolder`). -/
def orEmptyStr (o : Option String) : String := o.getD ""

-- ==================== Split/Merge for per-project storage ====================

/-- Folder filter of the project partition in `splitMediaData`:
`f.projectId === pid && !f.isSystem`. -/
def projFolderPred (pid : String) (f : MediaFolder) : Bool :=
  f.projectId == some pid && !f.isSystem

/-- Folder filter of the shared partition in `splitMediaData`:
`f.isSystem || (!f.projectId && !f.isAutoCreated)`. -/
def sharedFolderPred (f : MediaFolder) : Bool :=
  f.isSystem || (!(strTruthy f.projectId) && !f.isAutoCreated)

/-- Media filter of the project partition: `f.projectId === pid`. -/
def projFilePred (pid : String) (f : MediaFile) : Bool :=
  f.projectId == some pid

/-- Media filter of the shared partition: `!f.projectId`. -/
def sharedFilePred (f : MediaFile) : Bool :=
  !(strTruthy f.projectId)

structure SplitMediaResult where
  projectData : MediaPersistedState
  sharedData : MediaPersistedState
deriving DecidableEq, Repr

/-- `splitMediaData` from the source. -/
def splitMediaData (state : MediaPersistedState) (pid : String) : SplitMediaResult :=
  { projectData :=
      { folders := state.folders.filter (projFolderPred pid)
        mediaFiles := state.mediaFiles.filter (projFilePred pid) }
    sharedData :=
      { folders := state.folders.filter sharedFolderPred
        mediaFiles := state.mediaFiles.filter sharedFilePred } }

/-- `mergeMediaData` from the source: shared data first, then project data;
either argument may be `null`. -/
def mergeMediaData (projectData sharedData : Option MediaPersistedState) :
    MediaPersistedState :=
  { folders :=
      ((sharedData.map MediaPersistedState.folders).getD []) ++
      ((projectData.map MediaPersistedState.folders).getD [])
    mediaFiles :=
      ((sharedData.map MediaPersistedState.mediaFiles).getD []) ++
      ((projectData.map MediaPersistedState.mediaFiles).getD []) }

/-- The round trip named by the spec:
`merge(split(C, p).project, split(C, p).shared)`. -/
def splitMergeRoundTrip (c : MediaPersistedState) (pid : String) : MediaPersistedState :=
  mergeMediaData (some (splitMediaData c pid).projectData)
    (some (splitMediaData c pid).sharedData)

theorem splitMergeRoundTrip_folders (c : MediaPersistedState) (pid : String) :
    (splitMergeRoundTrip c pid).folders =
      c.folders.filter sharedFolderPred ++ c.folders.filter (projFolderPred pid) := rfl

theorem splitMergeRoundTrip_mediaFiles (c : MediaPersistedState) (pid : String) :
    (splitMergeRoundTrip c pid).mediaFiles =
      c.mediaFiles.filter sharedFilePred ++ c.mediaFiles.filter (projFilePred pid) := rfl

/-- For a nonempty project id, no folder passes both partition filters. -/
theorem folderPred_excl {pid : String} (hpid : pid ≠ "") (f : MediaFolder)
    (hp : projFolderPred pid f = true) : sharedFolderPred f = false := by
  simp only [projFolderPred, Bool.and_eq_true, beq_iff_eq, Bool.not_eq_true'] at hp
  simp [sharedFolderPred, hp.1, hp.2, strTruthy, hpid]

/-- For a nonempty project id, no media item passes both partition filters. -/
theorem filePred_excl {pid : String} (hpid : pid ≠ "") (f : MediaFile)
    (hp : projFilePred pid f = true) : sharedFilePred f = false := by
  simp only [projFilePred, beq_iff_eq] at hp
  simp [sharedFilePred, hp, strTruthy, hpid]

/-- Claim C1 (amended): for a nonempty project id `p` and a catalog `C` in which
every folder belongs to one of the two partitions (it is a system folder, a
non-system folder of project `p`, or an unscoped non-auto-created folder) and
every media item belongs to one of the two partitions (its projectId is `p`,
or is absent/empty), `merge(split(C, p).project, split(C, p).shared)` is a
permutation of `C` (reordered shared-then-project), and applying
split-then-merge to that result returns it unchanged. -/
theorem splitMerge_roundTrip_perm_fixed (c : MediaPersistedState) (pid : String)
    (hpid : pid ≠ "")
    (hf : ∀ f ∈ c.folders, (projFolderPred pid f || sharedFolderPred f) = true)
    (hm : ∀ m ∈ c.mediaFiles, (projFilePred pid m || sharedFilePred m) = true) :
    ((splitMergeRoundTrip c pid).folders).Perm c.folders ∧
    ((splitMergeRoundTrip c pid).mediaFiles).Perm c.mediaFiles ∧
    splitMergeRoundTrip (splitMergeRoundTrip c pid) pid = splitMergeRoundTrip c pid := by
  have hfolders : c.folders.filter (projFolderPred pid) =
      c.folders.filter (fun f => !(sharedFolderPred f)) := by
    refine List.filter_congr ?_
    intro f hfmem
    rcases hbp : projFolderPred pid f with _ | _
    · have := hf f hfmem
      rw [hbp] at this
      simp only [Bool.false_or] at this
      simp [this]
    · simp [folderPred_excl hpid f hbp]
  have hfiles : c.mediaFiles.filter (projFilePred pid) =
      c.mediaFiles.filter (fun m => !(sharedFilePred m)) := by
    refine List.filter_congr ?_
    intro m hmmem
    rcases hbp : projFilePred pid m with _ | _
    · have := hm m hmmem
      rw [hbp] at this
      simp only [Bool.false_or] at this
      simp [this]
    · simp [filePred_excl hpid m hbp]
  have hpermF : ((splitMergeRoundTrip c pid).folders).Perm c.folders := by
    rw [splitMergeRoundTrip_folders, hfolders]
    exact (List.perm_append_comm).trans
      (by simpa using List.filter_append_perm (fun f => !(sharedFolderPred f)) c.folders)
  have hpermM : ((splitMergeRoundTrip c pid).mediaFiles).Perm c.mediaFiles := by
    rw [splitMergeRoundTrip_mediaFiles, hfiles]
    exact (List.perm_append_comm).trans
      (by simpa using List.filter_append_perm (fun m => !(sharedFilePred m)) c.mediaFiles)
  refine ⟨hpermF, hpermM, ?_⟩
  -- fixed point: filtering the merged catalog again changes nothing
  have hShF : ∀ x ∈ c.folders.filter sharedFolderPred, sharedFolderPred x = true :=
    fun x hx => List.of_mem_filter hx
  have hPrF : ∀ x ∈ c.folders.filter (projFolderPred pid), projFolderPred pid x = true :=
    fun x hx => List.of_mem_filter hx
  have hShM : ∀ x ∈ c.mediaFiles.filter sharedFilePred, sharedFilePred x = true :=
    fun x hx => List.of_mem_filter hx
  have hPrM : ∀ x ∈ c.mediaFiles.filter (projFilePred pid), projFilePred pid x = true :=
    fun x hx => List.of_mem_filter hx
  refine MediaPersistedState.ext2 ?_ ?_
  · rw [splitMergeRoundTrip_folders, splitMergeRoundTrip_folders]
    rw [List.filter_append, List.filter_append]
    have e1 : (c.folders.filter sharedFolderPred).filter sharedFolderPred =
        c.folders.filter sharedFolderPred := List.filter_eq_self.mpr hShF
    have e2 : (c.folders.filter (projFolderPred pid)).filter sharedFolderPred = [] := by
      rw [List.filter_eq_nil_iff]
      intro x hx
      simpa using folderPred_excl hpid x (hPrF x hx)
    have e3 : (c.folders.filter sharedFolderPred).filter (projFolderPred pid) = [] := by
      rw [List.filter_eq_nil_iff]
      intro x hx
      rcases hb : projFolderPred pid x with _ | _
      · simp
      · have := folderPred_excl hpid x hb
        rw [hShF x hx] at this
        exact absurd this (by simp)
    have e4 : (c.folders.filter (projFolderPred pid)).filter (projFolderPred pid) =
        c.folders.filter (projFolderPred pid) := List.filter_eq_self.mpr hPrF
    rw [e1, e2, e3, e4]
    simp
  · rw [splitMergeRoundTrip_mediaFiles, splitMergeRoundTrip_mediaFiles]
    rw [List.filter_append, List.filter_append]
    have e1 : (c.mediaFiles.filter sharedFilePred).filter sharedFilePred =
        c.mediaFiles.filter sharedFilePred := List.filter_eq_self.mpr hShM
    have e2 : (c.mediaFiles.filter (projFilePred pid)).filter sharedFilePred = [] := by
      rw [List.filter_eq_nil_iff]
      intro x hx
      simpa using filePred_excl hpid x (hPrM x hx)
    have e3 : (c.mediaFiles.filter sharedFilePred).filter (projFilePred pid) = [] := by
      rw [List.filter_eq_nil_iff]
      intro x hx
      rcases hb : projFilePred pid x with _ | _
      · simp
      · have := filePred_excl hpid x hb
        rw [hShM x hx] at this
        exact absurd this (by simp)
    have e4 : (c.mediaFiles.filter (projFilePred pid)).filter (projFilePred pid) =
        c.mediaFiles.filter (projFilePred pid) := List.filter_eq_self.mpr hPrM
    rw [e1, e2, e3, e4]
    simp

/-- A catalog holding a single media item scoped to project "q". -/
def c1cexCatalog : MediaPersistedState :=
  { folders := []
    mediaFiles := [{ id := "m1", name := "a.png", type := MediaType.image, url := none,
                     thumbnailUrl := none, duration := none, source := MediaSource.upload,
                     folderId := none, projectId := some "q" }] }

/-- Claim C1 counterexample: splitting the catalog `c1cexCatalog` (one item
scoped to project "q") at project id "p" and merging the two partitions yields
an empty item list, so the merged item set does not equal the catalog's item
set: entities scoped to a foreign project are dropped by the round trip. -/
theorem splitMerge_roundTrip_counterexample :
    (splitMergeRoundTrip c1cexCatalog "p").mediaFiles = [] ∧
    c1cexCatalog.mediaFiles ≠ [] := by decide

/-- Concrete inputs for the amended claim C1. -/
def c1witCatalog : MediaPersistedState :=
  { folders := [{ id := "fsys", name := "AI图片", parentId := none, projectId := none,
                  isSystem := true, isAutoCreated := false,
                  category := some MediaFolderCategory.aiImage, createdAt := 1 },
                { id := "fp", name := "clips", parentId := none, projectId := some "p1",
                  isSystem := false, isAutoCreated := true, category := none, createdAt := 2 },
                { id := "fsh", name := "misc", parentId := none, projectId := none,
                  isSystem := false, isAutoCreated := false, category := none, createdAt := 3 }]
    mediaFiles := [{ id := "m1", name := "a.png", type := MediaType.image, url := none,
                     thumbnailUrl := none, duration := none, source := MediaSource.upload,
                     folderId := some "fp", projectId := some "p1" },
                   { id := "m2", name := "b.png", type := MediaType.image, url := none,
                     thumbnailUrl := none, duration := none, source := MediaSource.aiImage,
                     folderId := none, projectId := none }] }

theorem splitMerge_roundTrip_perm_fixed_witness :
    ("p1" ≠ "" ∧
     (∀ f ∈ c1witCatalog.folders, (projFolderPred "p1" f || sharedFolderPred f) = true) ∧
     (∀ m ∈ c1witCatalog.mediaFiles, (projFilePred "p1" m || sharedFilePred m) = true)) ∧
    (((splitMergeRoundTrip c1witCatalog "p1").folders).Perm c1witCatalog.folders ∧
     ((splitMergeRoundTrip c1witCatalog "p1").mediaFiles).Perm c1witCatalog.mediaFiles ∧
     splitMergeRoundTrip (splitMergeRoundTrip c1witCatalog "p1") "p1" =
       splitMergeRoundTrip c1witCatalog "p1") :=
  ⟨⟨by decide, by decide, by decide⟩,
   splitMerge_roundTrip_perm_fixed c1witCatalog "p1" (by decide) (by decide) (by decide)⟩

/-- Claim C2 (amended): for every catalog with unique folder ids and unique
media-item ids and every nonempty project id, the two partitions produced by
`splitMediaData` are disjoint by id, and every folder with
`isAutoCreated = true`, `isSystem = false` and no `projectId` appears in
neither partition. -/
theorem splitMediaData_disjoint_excludes (c : MediaPersistedState) (pid : String)
    (hpid : pid ≠ "")
    (hnf : (c.folders.map MediaFolder.id).Nodup)
    (hnm : (c.mediaFiles.map MediaFile.id).Nodup) :
    (∀ i, i ∈ (splitMediaData c pid).projectData.folders.map MediaFolder.id →
      i ∉ (splitMediaData c pid).sharedData.folders.map MediaFolder.id) ∧
    (∀ i, i ∈ (splitMediaData c pid).projectData.mediaFiles.map MediaFile.id →
      i ∉ (splitMediaData c pid).sharedData.mediaFiles.map MediaFile.id) ∧
    (∀ f ∈ c.folders, f.isAutoCreated = true → f.isSystem = false → f.projectId = none →
      f ∉ (splitMediaData c pid).projectData.folders ∧
      f ∉ (splitMediaData c pid).sharedData.folders) := by
  refine ⟨?_, ?_, ?_⟩
  · intro i hip his
    rcases List.mem_map.mp hip with ⟨f1, hf1, hid1⟩
    rcases List.mem_map.mp his with ⟨f2, hf2, hid2⟩
    have hm1 := List.mem_filter.mp hf1
    have hm2 := List.mem_filter.mp hf2
    have heq : f1 = f2 :=
      List.inj_on_of_nodup_map hnf hm1.1 hm2.1 (hid1.trans hid2.symm)
    have := folderPred_excl hpid f1 hm1.2
    rw [heq] at this
    rw [this] at hm2
    exact absurd hm2.2 (by simp)
  · intro i hip his
    rcases List.mem_map.mp hip with ⟨f1, hf1, hid1⟩
    rcases List.mem_map.mp his with ⟨f2, hf2, hid2⟩
    have hm1 := List.mem_filter.mp hf1
    have hm2 := List.mem_filter.mp hf2
    have heq : f1 = f2 :=
      List.inj_on_of_nodup_map hnm hm1.1 hm2.1 (hid1.trans hid2.symm)
    have := filePred_excl hpid f1 hm1.2
    rw [heq] at this
    rw [this] at hm2
    exact absurd hm2.2 (by simp)
  · intro f _ hauto hsys hproj
    constructor
    · intro hmem
      have := (List.mem_filter.mp hmem).2
      rw [projFolderPred, hproj] at this
      simp at this
    · intro hmem
      have := (List.mem_filter.mp hmem).2
      rw [sharedFolderPred, hproj, hsys, hauto] at this
      simp [strTruthy] at this

/-- A catalog holding one media item whose `projectId` is the empty string. -/
def c2cexCatalog : MediaPersistedState :=
  { folders := []
    mediaFiles := [{ id := "m1", name := "a.png", type := MediaType.image, url := none,
                     thumbnailUrl := none, duration := none, source := MediaSource.upload,
                     folderId := none, projectId := some "" }] }

/-- Claim C2 counterexample: with project id `""` (falsy in JavaScript), an
item carrying the empty-string `projectId` passes both the project filter
(`f.projectId === pid`) and the shared filter (`!f.projectId`), so the two
partitions are not disjoint. -/
theorem splitMediaData_disjoint_counterexample :
    (splitMediaData c2cexCatalog "").projectData.mediaFiles =
      c2cexCatalog.mediaFiles ∧
    (splitMediaData c2cexCatalog "").sharedData.mediaFiles =
      c2cexCatalog.mediaFiles ∧
    c2cexCatalog.mediaFiles ≠ [] := by decide

theorem splitMediaData_disjoint_excludes_witness :
    ("p1" ≠ "" ∧ (c1witCatalog.folders.map MediaFolder.id).Nodup ∧
      (c1witCatalog.mediaFiles.map MediaFile.id).Nodup) ∧
    ((∀ i, i ∈ (splitMediaData c1witCatalog "p1").projectData.folders.map MediaFolder.id →
        i ∉ (splitMediaData c1witCatalog "p1").sharedData.folders.map MediaFolder.id) ∧
     (∀ i, i ∈ (splitMediaData c1witCatalog "p1").projectData.mediaFiles.map MediaFile.id →
        i ∉ (splitMediaData c1witCatalog "p1").sharedData.mediaFiles.map MediaFile.id) ∧
     (∀ f ∈ c1witCatalog.folders,
        f.isAutoCreated = true → f.isSystem = false → f.projectId = none →
        f ∉ (splitMediaData c1witCatalog "p1").projectData.folders ∧
        f ∉ (splitMediaData c1witCatalog "p1").sharedData.folders)) :=
  ⟨⟨by decide, by decide, by decide⟩,
   splitMediaData_disjoint_excludes c1witCatalog "p1" (by decide) (by decide) (by decide)⟩

-- ==================== Folder deletion ====================

/-- The recursive descendant-id computation in `deleteFolder`
(`getDescendantIds`).  The JavaScript recursion carries no fuel; it is modelled
with enough fuel (`folders.length + 1` at the call site) to cover every
shortest parent chain, which is proved to compute exactly the transitively
reachable ids (`mem_getDescendantIds_iff_folderDesc`). -/
def getDescendantIds (folders : List MediaFolder) : Nat → String → List String
  | 0, _ => []
  | fuel + 1, folderId =>
    let children := folders.filter (fun f => f.parentId == some folderId)
    folderId :: children.flatMap (fun c => getDescendantIds folders fuel c.id)

/-- `deleteFolder` from the source. -/
def deleteFolder (id : String) (s : MediaState) : MediaState :=
  let target := s.folders.find? (fun f => f.id == id)
  if (target.map MediaFolder.isSystem).getD false then s
  else
    let folderIdsToDelete := getDescendantIds s.folders (s.folders.length + 1) id
    { mediaFiles := s.mediaFiles.map (fun f =>
        if folderIdsToDelete.contains (orEmptyStr f.folderId) then { f with folderId := none }
        else f)
      folders := s.folders.filter (fun f => !(folderIdsToDelete.contains f.id))
      currentFolderId :=
        if folderIdsToDelete.contains (orEmptyStr s.currentFolderId) then none
        else s.currentFolderId
      isLoading := s.isLoading }

/-- One parent step: `b` is the id of a folder in `folders` whose `parentId`
is `a`. -/
def FolderEdge (folders : List MediaFolder) (a b : String) : Prop :=
  ∃ f, f ∈ folders ∧ f.parentId = some a ∧ f.id = b

/-- Transitive reachability from `root` via `parentId`, the specification-side
meaning of "F and all folders transitively parented under F". -/
def FolderDesc (folders : List MediaFolder) (root x : String) : Prop :=
  Relation.ReflTransGen (FolderEdge folders) root x

/-- Explicit parent-chain paths: `FolderPath folders a l b` means `l` lists the
successive ids stepped through from `a` to reach `b`. -/
inductive FolderPath (folders : List MediaFolder) : String → List String → String → Prop where
  | nil (a : String) : FolderPath folders a [] a
  | cons {a b c : String} {l : List String} :
      FolderEdge folders a b → FolderPath folders b l c → FolderPath folders a (b :: l) c

theorem folderDesc_of_mem_getDescendantIds (folders : List MediaFolder) :
    ∀ (fuel : Nat) (a x : String), x ∈ getDescendantIds folders fuel a →
      FolderDesc folders a x := by
  intro fuel
  induction fuel with
  | zero => intro a x hx; simp [getDescendantIds] at hx
  | succ n ih =>
    intro a x hx
    simp only [getDescendantIds, List.mem_cons] at hx
    rcases hx with rfl | hx
    · exact Relation.ReflTransGen.refl
    · rw [List.mem_flatMap] at hx
      rcases hx with ⟨c, hc, hmem⟩
      have hcf := List.mem_filter.mp hc
      have hedge : FolderEdge folders a c.id := ⟨c, hcf.1, by simpa using hcf.2, rfl⟩
      exact Relation.ReflTransGen.head hedge (ih c.id x hmem)

theorem folderDesc_of_path {folders : List MediaFolder} :
    ∀ {a l b}, FolderPath folders a l b → FolderDesc folders a b := by
  intro a l b h
  induction h with
  | nil a => exact Relation.ReflTransGen.refl
  | cons hedge _ ih => exact Relation.ReflTransGen.head hedge ih

theorem path_of_folderDesc {folders : List MediaFolder} {a b : String}
    (h : FolderDesc folders a b) : ∃ l, FolderPath folders a l b := by
  induction h using Relation.ReflTransGen.head_induction_on with
  | refl => exact ⟨[], FolderPath.nil b⟩
  | head hedge _ ih =>
    rcases ih with ⟨l, hl⟩
    exact ⟨_, FolderPath.cons hedge hl⟩

theorem folderPath_suffix {folders : List MediaFolder} :
    ∀ (l1 : List String) {a d b l2}, FolderPath folders a (l1 ++ d :: l2) b →
      FolderPath folders d l2 b := by
  intro l1
  induction l1 with
  | nil =>
    intro a d b l2 h
    cases h with
    | cons hedge htail => exact htail
  | cons x l1' ih =>
    intro a d b l2 h
    cases h with
    | cons hedge htail => exact ih htail

theorem folderPath_replace {folders : List MediaFolder} :
    ∀ (l1 : List String) {a d b l2 m}, FolderPath folders a (l1 ++ d :: l2) b →
      FolderPath folders d m b → FolderPath folders a (l1 ++ d :: m) b := by
  intro l1
  induction l1 with
  | nil =>
    intro a d b l2 m h hm
    cases h with
    | cons hedge _ => exact FolderPath.cons hedge hm
  | cons x l1' ih =>
    intro a d b l2 m h hm
    cases h with
    | cons hedge htail => exact FolderPath.cons hedge (ih htail hm)

theorem exists_dup_decomp :
    ∀ (l : List String), ¬ l.Nodup → ∃ d l1 l2 l3, l = l1 ++ d :: (l2 ++ d :: l3) := by
  intro l
  induction l with
  | nil => intro h; exact absurd List.nodup_nil h
  | cons x t ih =>
    intro h
    by_cases hx : x ∈ t
    · rcases List.append_of_mem hx with ⟨s, u, rfl⟩
      exact ⟨x, [], s, u, rfl⟩
    · have hnt : ¬ t.Nodup := fun hnd => h (List.nodup_cons.mpr ⟨hx, hnd⟩)
      rcases ih hnt with ⟨d, l1, l2, l3, rfl⟩
      exact ⟨d, x :: l1, l2, l3, rfl⟩

theorem folderPath_shorten {folders : List MediaFolder} :
    ∀ (n : Nat) (l : List String) {a b}, l.length ≤ n → FolderPath folders a l b →
      ∃ l2, FolderPath folders a l2 b ∧ (a :: l2).Nodup ∧ l2.length ≤ l.length := by
  intro n
  induction n with
  | zero =>
    intro l a b hlen h
    have hl : l = [] := List.length_eq_zero.mp (Nat.le_zero.mp hlen)
    subst hl
    exact ⟨[], h, List.nodup_singleton a, Nat.le_refl 0⟩
  | succ n ih =>
    intro l a b hlen h
    by_cases hnd : (a :: l).Nodup
    · exact ⟨l, h, hnd, Nat.le_refl _⟩
    · rcases exists_dup_decomp (a :: l) hnd with ⟨d, l1, l2, l3, hdec⟩
      cases l1 with
      | nil =>
        simp only [List.nil_append] at hdec
        injection hdec with h1 h2
        subst h1
        subst h2
        have hsuf : FolderPath folders a l3 b := folderPath_suffix l2 h
        have hlen3 : l3.length ≤ n := by
          have := hlen
          simp only [List.length_append, List.length_cons] at this
          omega
        rcases ih l3 hlen3 hsuf with ⟨l4, hp4, hnd4, hle4⟩
        refine ⟨l4, hp4, hnd4, ?_⟩
        simp only [List.length_append, List.length_cons]
        omega
      | cons x l1' =>
        rw [List.cons_append] at hdec
        injection hdec with h1 h2
        subst h1
        subst h2
        have hsuf : FolderPath folders d l3 b := by
          have hre : l1' ++ d :: (l2 ++ d :: l3) = (l1' ++ d :: l2) ++ d :: l3 := by
            simp
          rw [hre] at h
          exact folderPath_suffix (l1' ++ d :: l2) h
        have hnew : FolderPath folders a (l1' ++ d :: l3) b := folderPath_replace l1' h hsuf
        have hlennew : (l1' ++ d :: l3).length ≤ n := by
          have := hlen
          simp only [List.length_append, List.length_cons] at this ⊢
          omega
        rcases ih (l1' ++ d :: l3) hlennew hnew with ⟨l4, hp4, hnd4, hle4⟩
        refine ⟨l4, hp4, hnd4, ?_⟩
        simp only [List.length_append, List.length_cons] at hle4 ⊢
        omega

theorem folderPath_nodes {folders : List MediaFolder} :
    ∀ {a l b}, FolderPath folders a l b → ∀ x ∈ l, ∃ f, f ∈ folders ∧ f.id = x := by
  intro a l b h
  induction h with
  | nil => simp
  | cons hedge htail ih =>
    intro x hx
    rcases List.mem_cons.mp hx with rfl | hx2
    · rcases hedge with ⟨f, hf, _, hid⟩
      exact ⟨f, hf, hid⟩
    · exact ih x hx2

theorem folderPath_length_le {folders : List MediaFolder} {a : String} {l : List String}
    {b : String} (hnd : (a :: l).Nodup) (h : FolderPath folders a l b) :
    l.length ≤ folders.length := by
  have hsub : l ⊆ folders.map MediaFolder.id := by
    intro x hx
    rcases folderPath_nodes h x hx with ⟨f, hf, hid⟩
    exact List.mem_map.mpr ⟨f, hf, hid⟩
  have := ((List.Nodup.of_cons hnd).subperm hsub).length_le
  simpa using this

theorem mem_getDescendantIds_of_path {folders : List MediaFolder} :
    ∀ {a l b}, FolderPath folders a l b → ∀ fuel, l.length < fuel →
      b ∈ getDescendantIds folders fuel a := by
  intro a l b h
  induction h with
  | nil a =>
    intro fuel hf
    cases fuel with
    | zero => exact absurd hf (by simp)
    | succ n => simp [getDescendantIds]
  | cons hedge htail ih =>
    intro fuel hf
    cases fuel with
    | zero => exact absurd hf (by simp)
    | succ n =>
      rcases hedge with ⟨f, hfmem, hpar, hid⟩
      simp only [getDescendantIds, List.mem_cons]
      right
      rw [List.mem_flatMap]
      refine ⟨f, List.mem_filter.mpr ⟨hfmem, by simp [hpar]⟩, ?_⟩
      rw [hid]
      exact ih n (by simpa using Nat.lt_of_succ_lt_succ hf)

/-- The fuel-completed descendant computation collects exactly the ids
transitively reachable from `a` via `parentId`. -/
theorem mem_getDescendantIds_iff_folderDesc (folders : List MediaFolder) (a x : String) :
    x ∈ getDescendantIds folders (folders.length + 1) a ↔ FolderDesc folders a x := by
  constructor
  · exact folderDesc_of_mem_getDescendantIds folders _ a x
  · intro h
    rcases path_of_folderDesc h with ⟨l, hl⟩
    rcases folderPath_shorten l.length l (Nat.le_refl _) hl with ⟨l2, hl2, hnd, _⟩
    have hlen := folderPath_length_le hnd hl2
    exact mem_getDescendantIds_of_path hl2 (folders.length + 1) (Nat.lt_succ_of_le hlen)

instance folderDescDecidable (folders : List MediaFolder) (a x : String) :
    Decidable (FolderDesc folders a x) :=
  decidable_of_iff (x ∈ getDescendantIds folders (folders.length + 1) a)
    (mem_getDescendantIds_iff_folderDesc folders a x)

theorem contains_eq_mem (l : List String) (y : String) : l.contains y = true ↔ y ∈ l := by
  simp [List.contains_iff_exists_mem_beq]

theorem find?_id_of_nodup {folders : List MediaFolder} {F : MediaFolder}
    (hnd : (folders.map MediaFolder.id).Nodup) (hF : F ∈ folders) :
    folders.find? (fun f => f.id == F.id) = some F := by
  induction folders with
  | nil => cases hF
  | cons g t ih =>
    rw [List.map_cons, List.nodup_cons] at hnd
    rcases List.mem_cons.mp hF with rfl | hFt
    · simp [List.find?]
    · have hgF : (g.id == F.id) = false := by
        rw [beq_eq_false_iff_ne]
        intro he
        exact hnd.1 (he ▸ List.mem_map.mpr ⟨F, hFt, rfl⟩)
      rw [List.find?_cons, hgF]
      exact ih hnd.2 hFt

theorem mediaFile_set_folderId_none {m : MediaFile} (h : m.folderId = none) :
    { m with folderId := none } = m := by
  cases m
  simp_all

/-- Claim C3: for every state with unique folder ids and every non-system
folder `F` in it, `deleteFolder F.id` removes exactly `F` and the folders
transitively reachable from `F` via `parentId` (and no other folder), sets
`folderId` to null on exactly those media items whose `folderId` was in the
removed set (leaving every other item unchanged), and resets
`currentFolderId` to null exactly when it was in the removed set. -/
theorem deleteFolder_nonsystem_spec (s : MediaState) (F : MediaFolder)
    (hnd : (s.folders.map MediaFolder.id).Nodup)
    (hF : F ∈ s.folders) (hsys : F.isSystem = false) :
    (∀ g, g ∈ (deleteFolder F.id s).folders ↔
      (g ∈ s.folders ∧ ¬ FolderDesc s.folders F.id g.id)) ∧
    (deleteFolder F.id s).mediaFiles = s.mediaFiles.map (fun m =>
      match m.folderId with
      | none => m
      | some fid =>
        if FolderDesc s.folders F.id fid then { m with folderId := none } else m) ∧
    ((deleteFolder F.id s).currentFolderId = match s.currentFolderId with
      | none => none
      | some cid => if FolderDesc s.folders F.id cid then none else some cid) ∧
    (deleteFolder F.id s).isLoading = s.isLoading := by
  have hfind : s.folders.find? (fun f => f.id == F.id) = some F := find?_id_of_nodup hnd hF
  have hdel : deleteFolder F.id s =
      { mediaFiles := s.mediaFiles.map (fun f =>
          if (getDescendantIds s.folders (s.folders.length + 1) F.id).contains
              (orEmptyStr f.folderId) then { f with folderId := none }
          else f)
        folders := s.folders.filter (fun f =>
          !((getDescendantIds s.folders (s.folders.length + 1) F.id).contains f.id))
        currentFolderId :=
          if (getDescendantIds s.folders (s.folders.length + 1) F.id).contains
              (orEmptyStr s.currentFolderId) then none
          else s.currentFolderId
        isLoading := s.isLoading } := by
    unfold deleteFolder
    rw [hfind]
    simp [hsys]
  have hcont : ∀ y, ((getDescendantIds s.folders (s.folders.length + 1) F.id).contains y
      = true) ↔ FolderDesc s.folders F.id y := by
    intro y
    rw [contains_eq_mem]
    exact mem_getDescendantIds_iff_folderDesc s.folders F.id y
  refine ⟨?_, ?_, ?_, ?_⟩
  · intro g
    rw [hdel]
    simp only [List.mem_filter, Bool.not_eq_true', ← Bool.not_eq_true, hcont]
  · rw [hdel]
    refine List.map_congr_left ?_
    intro m _
    cases hm : m.folderId with
    | none =>
      simp only [orEmptyStr, hm, Option.getD_none]
      rw [mediaFile_set_folderId_none hm]
      simp
    | some fid =>
      simp only [orEmptyStr, hm, Option.getD_some]
      by_cases hd : FolderDesc s.folders F.id fid
      · rw [if_pos ((hcont fid).mpr hd), if_pos hd]
      · rw [if_neg (fun hc => hd ((hcont fid).mp hc)), if_neg hd]
  · rw [hdel]
    cases hc : s.currentFolderId with
    | none =>
      simp only [orEmptyStr, Option.getD_none]
      simp
    | some cid =>
      simp only [orEmptyStr, Option.getD_some]
      by_cases hd : FolderDesc s.folders F.id cid
      · rw [if_pos ((hcont cid).mpr hd), if_pos hd]
      · rw [if_neg (fun hcx => hd ((hcont cid).mp hcx)), if_neg hd]
  · rw [hdel]

/-- Concrete state for the claim C3 witness: folder "fb" is a child of "fa",
folder "fo" is unrelated; one item sits in "fb", one in "fo". -/
def c3state : MediaState :=
  { mediaFiles := [{ id := "m1", name := "a.png", type := MediaType.image, url := none,
                     thumbnailUrl := none, duration := none, source := MediaSource.upload,
                     folderId := some "fb", projectId := none },
                   { id := "m2", name := "b.png", type := MediaType.image, url := none,
                     thumbnailUrl := none, duration := none, source := MediaSource.upload,
                     folderId := some "fo", projectId := none }]
    folders := [{ id := "fa", name := "A", parentId := none, projectId := none,
                  isSystem := false, isAutoCreated := false, category := none, createdAt := 0 },
                { id := "fb", name := "B", parentId := some "fa", projectId := none,
                  isSystem := false, isAutoCreated := false, category := none, createdAt := 1 },
                { id := "fo", name := "O", parentId := none, projectId := none,
                  isSystem := false, isAutoCreated := false, category := none, createdAt := 2 }]
    currentFolderId := some "fb"
    isLoading := false }

def c3F : MediaFolder :=
  { id := "fa", name := "A", parentId := none, projectId := none,
    isSystem := false, isAutoCreated := false, category := none, createdAt := 0 }

theorem deleteFolder_nonsystem_spec_witness :
    ((c3state.folders.map MediaFolder.id).Nodup ∧ c3F ∈ c3state.folders ∧
      c3F.isSystem = false) ∧
    ((∀ g, g ∈ (deleteFolder c3F.id c3state).folders ↔
        (g ∈ c3state.folders ∧ ¬ FolderDesc c3state.folders c3F.id g.id)) ∧
     (deleteFolder c3F.id c3state).mediaFiles = c3state.mediaFiles.map (fun m =>
        match m.folderId with
        | none => m
        | some fid =>
          if FolderDesc c3state.folders c3F.id fid then { m with folderId := none } else m) ∧
     ((deleteFolder c3F.id c3state).currentFolderId = match c3state.currentFolderId with
        | none => none
        | some cid => if FolderDesc c3state.folders c3F.id cid then none else some cid) ∧
     (deleteFolder c3F.id c3state).isLoading = c3state.isLoading) :=
  ⟨⟨by decide, by decide, by decide⟩,
   deleteFolder_nonsystem_spec c3state c3F (by decide) (by decide) (by decide)⟩

/-- Claim C4: deleting a folder whose `isSystem` is true leaves the entire
state unchanged (over states with unique folder ids). -/
theorem deleteFolder_system_noop (s : MediaState) (F : MediaFolder)
    (hnd : (s.folders.map MediaFolder.id).Nodup)
    (hF : F ∈ s.folders) (hsys : F.isSystem = true) :
    deleteFolder F.id s = s := by
  have hfind := find?_id_of_nodup hnd hF
  unfold deleteFolder
  rw [hfind]
  simp [hsys]

def c4state : MediaState :=
  { mediaFiles := []
    folders := [{ id := "sys1", name := "AI图片", parentId := none, projectId := none,
                  isSystem := true, isAutoCreated := false,
                  category := some MediaFolderCategory.aiImage, createdAt := 0 }]
    currentFolderId := none
    isLoading := false }

def c4F : MediaFolder :=
  { id := "sys1", name := "AI图片", parentId := none, projectId := none,
    isSystem := true, isAutoCreated := false,
    category := some MediaFolderCategory.aiImage, createdAt := 0 }

theorem deleteFolder_system_noop_witness :
    ((c4state.folders.map MediaFolder.id).Nodup ∧ c4F ∈ c4state.folders ∧
      c4F.isSystem = true) ∧
    deleteFolder c4F.id c4state = c4state :=
  ⟨⟨by decide, by decide, by decide⟩,
   deleteFolder_system_noop c4state c4F (by decide) (by decide) (by decide)⟩

/-- Claim C10 (amended): for an id `X` that is neither the id nor the
`parentId` of any folder in the state, `deleteFolder X` leaves the folders
collection unchanged, re-parents exactly the media items whose `folderId`
equals `X` to null, resets `currentFolderId` to null if it equals `X`, and
leaves `isLoading` unchanged. -/
theorem deleteFolder_missing_id_spec (s : MediaState) (X : String)
    (h1 : ∀ f ∈ s.folders, f.id ≠ X) (h2 : ∀ f ∈ s.folders, f.parentId ≠ some X) :
    (deleteFolder X s).folders = s.folders ∧
    (deleteFolder X s).mediaFiles = s.mediaFiles.map (fun m =>
      if m.folderId == some X then { m with folderId := none } else m) ∧
    ((deleteFolder X s).currentFolderId =
      if s.currentFolderId == some X then none else s.currentFolderId) ∧
    (deleteFolder X s).isLoading = s.isLoading := by
  have hfind : s.folders.find? (fun f => f.id == X) = none := by
    rw [List.find?_eq_none]
    intro f hf
    simp [h1 f hf]
  have hchildren : s.folders.filter (fun f => f.parentId == some X) = [] := by
    rw [List.filter_eq_nil_iff]
    intro f hf
    simp [h2 f hf]
  have hdesc : getDescendantIds s.folders (s.folders.length + 1) X = [X] := by
    simp [getDescendantIds, hchildren]
  have hdel : deleteFolder X s =
      { mediaFiles := s.mediaFiles.map (fun f =>
          if [X].contains (orEmptyStr f.folderId) then { f with folderId := none } else f)
        folders := s.folders.filter (fun f => !([X].contains f.id))
        currentFolderId :=
          if [X].contains (orEmptyStr s.currentFolderId) then none else s.currentFolderId
        isLoading := s.isLoading } := by
    unfold deleteFolder
    rw [hfind, hdesc]
    simp
  have hcontX : ∀ y, (([X].contains y) = true) ↔ y = X := by
    intro y
    rw [contains_eq_mem]
    simp
  refine ⟨?_, ?_, ?_, ?_⟩
  · rw [hdel]
    refine List.filter_eq_self.mpr ?_
    intro f hf
    simp only [Bool.not_eq_true']
    rw [← Bool.not_eq_true]
    intro hc
    exact h1 f hf ((hcontX f.id).mp hc)
  · rw [hdel]
    refine List.map_congr_left ?_
    intro m _
    cases hm : m.folderId with
    | none =>
      simp only [orEmptyStr, hm, Option.getD_none]
      by_cases hX : X = ""
      · subst hX
        rw [if_pos ((hcontX "").mpr rfl), mediaFile_set_folderId_none hm]
        simp
      · rw [if_neg (fun hc => hX ((hcontX "").mp hc).symm)]
        simp
    | some fid =>
      simp only [orEmptyStr, hm, Option.getD_some]
      by_cases hfx : fid = X
      · subst hfx
        rw [if_pos ((hcontX fid).mpr rfl)]
        simp
      · rw [if_neg (fun hc => hfx ((hcontX fid).mp hc))]
        simp [hfx]
  · rw [hdel]
    cases hc : s.currentFolderId with
    | none =>
      simp only [orEmptyStr, Option.getD_none]
      by_cases hX : X = ""
      · subst hX
        rw [if_pos ((hcontX "").mpr rfl)]
        simp
      · rw [if_neg (fun hcx => hX ((hcontX "").mp hcx).symm)]
        simp
    | some cid =>
      simp only [orEmptyStr, Option.getD_some]
      by_cases hfx : cid = X
      · subst hfx
        rw [if_pos ((hcontX cid).mpr rfl)]
        simp
      · rw [if_neg (fun hcx => hfx ((hcontX cid).mp hcx))]
        simp [hfx]
  · rw [hdel]

/-- A state whose only folder has a dangling `parentId` pointing at the
missing id "x". -/
def c10cexState : MediaState :=
  { mediaFiles := []
    folders := [{ id := "a", name := "A", parentId := some "x", projectId := none,
                  isSystem := false, isAutoCreated := false, category := none, createdAt := 0 }]
    currentFolderId := none
    isLoading := false }

/-- Claim C10 counterexample: "x" is not the id of any folder in
`c10cexState`, yet `deleteFolder "x"` does not leave the folders collection
unchanged — the folder whose `parentId` is "x" is collected as a descendant
and deleted. -/
theorem deleteFolder_missing_id_counterexample :
    c10cexState.folders.map MediaFolder.id = ["a"] ∧
    (deleteFolder "x" c10cexState).folders = [] ∧
    (deleteFolder "x" c10cexState).folders ≠ c10cexState.folders := by decide

/-- Concrete state for the claim C10 witness: no folder has id or parent "x",
one item and the current-folder selection dangle on "x". -/
def c10witState : MediaState :=
  { mediaFiles := [{ id := "m1", name := "a.png", type := MediaType.image, url := none,
                     thumbnailUrl := none, duration := none, source := MediaSource.upload,
                     folderId := some "x", projectId := none },
                   { id := "m2", name := "b.png", type := MediaType.image, url := none,
                     thumbnailUrl := none, duration := none, source := MediaSource.upload,
                     folderId := some "fa", projectId := none }]
    folders := [{ id := "fa", name := "A", parentId := none, projectId := none,
                  isSystem := false, isAutoCreated := false, category := none, createdAt := 0 }]
    currentFolderId := some "x"
    isLoading := false }

theorem deleteFolder_missing_id_spec_witness :
    ((∀ f ∈ c10witState.folders, f.id ≠ "x") ∧
     (∀ f ∈ c10witState.folders, f.parentId ≠ some "x")) ∧
    ((deleteFolder "x" c10witState).folders = c10witState.folders ∧
     (deleteFolder "x" c10witState).mediaFiles = c10witState.mediaFiles.map (fun m =>
       if m.folderId == some "x" then { m with folderId := none } else m) ∧
     ((deleteFolder "x" c10witState).currentFolderId =
       if c10witState.currentFolderId == some "x" then none
       else c10witState.currentFolderId) ∧
     (deleteFolder "x" c10witState).isLoading = c10witState.isLoading) :=
  ⟨⟨by decide, by decide⟩,
   deleteFolder_missing_id_spec c10witState "x" (by decide) (by decide)⟩

-- ==================== System folder initialization ====================

structure SystemCategoryDef where
  category : MediaFolderCategory
  name : String
  icon : String
deriving DecidableEq, Repr

/-- `SYSTEM_CATEGORIES` from the source. -/
def SYSTEM_CATEGORIES : List SystemCategoryDef :=
  [{ category := MediaFolderCategory.aiImage, name := "AI图片", icon := "Sparkles" },
   { category := MediaFolderCategory.aiVideo, name := "AI视频", icon := "Film" },
   { category := MediaFolderCategory.upload, name := "上传文件", icon := "CloudUpload" }]

/-- The existence test `folders.find((f) => f.isSystem && f.category === c)`
used both for building `newFolders` and in the legacy-migration guard. -/
def sysCatExists (folders : List MediaFolder) (c : MediaFolderCategory) : Bool :=
  folders.any (fun f => f.isSystem && f.category == some c)

/-- The system folder pushed onto `newFolders` for a missing category.
`fresh` stands for `generateUUID()` and `now` for `Date.now()`. -/
def mkSystemFolder (fresh : MediaFolderCategory → String) (now : Nat)
    (cat : SystemCategoryDef) : MediaFolder :=
  { id := fresh cat.category, name := cat.name, parentId := none, projectId := none,
    isSystem := true, isAutoCreated := false, category := some cat.category,
    createdAt := now }

/-- The `newFolders` accumulation loop of `initSystemFolders`. -/
def newSystemFolders (fresh : MediaFolderCategory → String) (now : Nat)
    (folders : List MediaFolder) : List MediaFolder :=
  SYSTEM_CATEGORIES.filterMap (fun cat =>
    if sysCatExists folders cat.category then none
    else some (mkSystemFolder fresh now cat))

/-- The legacy-folder search predicate:
`f.name === 'AI生成' && !f.isSystem && f.parentId === null`. -/
def legacyFolderPred (f : MediaFolder) : Bool :=
  f.name == "AI生成" && !f.isSystem && f.parentId == none

/-- The in-place conversion applied to the legacy folder:
`{...f, name: 'AI图片', isSystem: true, category: 'ai-image', projectId: undefined}`. -/
def convertLegacy (legacyId : String) (f : MediaFolder) : MediaFolder :=
  if f.id == legacyId then
    { f with
      name := "AI图片"
      isSystem := true
      category := some MediaFolderCategory.aiImage
      projectId := none }
  else f

/-- `initSystemFolders` from the source. -/
def initSystemFolders (fresh : MediaFolderCategory → String) (now : Nat)
    (s : MediaState) : MediaState :=
  let folders := s.folders
  let newFolders := newSystemFolders fresh now folders
  let step : MediaState × List MediaFolder :=
    match folders.find? legacyFolderPred with
    | none => (s, newFolders)
    | some legacyAiFolder =>
      let hasAiImageFolder :=
        sysCatExists folders MediaFolderCategory.aiImage
        || newFolders.any (fun f => f.category == some MediaFolderCategory.aiImage)
      if !hasAiImageFolder then
        ({ s with folders := s.folders.map (convertLegacy legacyAiFolder.id) },
         newFolders.eraseP (fun f => f.category == some MediaFolderCategory.aiImage))
      else (s, newFolders)
  if step.2.length > 0 then { step.1 with folders := step.1.folders ++ step.2 } else step.1

/-- Whenever no ai-image system folder exists, the `newFolders` list built in
the same pass contains one. -/
theorem newSystemFolders_has_aiImage (fresh : MediaFolderCategory → String) (now : Nat)
    (folders : List MediaFolder)
    (h : sysCatExists folders MediaFolderCategory.aiImage = false) :
    (newSystemFolders fresh now folders).any
      (fun f => f.category == some MediaFolderCategory.aiImage) = true := by
  simp [newSystemFolders, SYSTEM_CATEGORIES, List.filterMap_cons, h, mkSystemFolder]

/-- The legacy-migration branch of `initSystemFolders` never fires: its guard
`!hasAiImageFolder` is always false, because `newFolders` contains an
ai-image entry exactly when no persisted ai-image system folder exists. -/
theorem initSystemFolders_legacy_dead (fresh : MediaFolderCategory → String) (now : Nat)
    (s : MediaState) :
    initSystemFolders fresh now s =
      (if (newSystemFolders fresh now s.folders).length > 0 then
        { s with folders := s.folders ++ newSystemFolders fresh now s.folders }
      else s) := by
  unfold initSystemFolders
  cases hleg : s.folders.find? legacyFolderPred with
  | none => simp only [hleg]
  | some legacy =>
    have hhas : (sysCatExists s.folders MediaFolderCategory.aiImage
        || (newSystemFolders fresh now s.folders).any
             (fun f => f.category == some MediaFolderCategory.aiImage)) = true := by
      cases hA : sysCatExists s.folders MediaFolderCategory.aiImage with
      | true => simp
      | false => simp [newSystemFolders_has_aiImage fresh now s.folders hA]
    simp only [hleg, hhas, Bool.not_true, Bool.false_eq_true, if_false]

/-- `initSystemFolders` just appends the missing system folders. -/
theorem initSystemFolders_eq (fresh : MediaFolderCategory → String) (now : Nat)
    (s : MediaState) :
    initSystemFolders fresh now s =
      { s with folders := s.folders ++ newSystemFolders fresh now s.folders } := by
  rw [initSystemFolders_legacy_dead]
  by_cases hl : (newSystemFolders fresh now s.folders).length > 0
  · simp [hl]
  · have hnil : newSystemFolders fresh now s.folders = [] := by
      cases hnf : newSystemFolders fresh now s.folders with
      | nil => rfl
      | cons a t => rw [hnf] at hl; simp at hl
    simp [hl, hnil]

/-- Number of system folders carrying category `c`. -/
def countSysCat (folders : List MediaFolder) (c : MediaFolderCategory) : Nat :=
  folders.countP (fun f => f.isSystem && f.category == some c)

theorem countSysCat_append (l1 l2 : List MediaFolder) (c : MediaFolderCategory) :
    countSysCat (l1 ++ l2) c = countSysCat l1 c + countSysCat l2 c := by
  simp [countSysCat, List.countP_append]

theorem sysCatExists_iff_countSysCat (folders : List MediaFolder) (c : MediaFolderCategory) :
    sysCatExists folders c = true ↔ 0 < countSysCat folders c := by
  rw [sysCatExists, countSysCat, List.any_eq_true, List.countP_pos_iff]

theorem sysCatExists_append (l1 l2 : List MediaFolder) (c : MediaFolderCategory) :
    sysCatExists (l1 ++ l2) c = (sysCatExists l1 c || sysCatExists l2 c) := by
  simp [sysCatExists, List.any_append]

theorem countSysCat_newSystemFolders (fresh : MediaFolderCategory → String) (now : Nat)
    (folders : List MediaFolder) (c : MediaFolderCategory) :
    countSysCat (newSystemFolders fresh now folders) c =
      if sysCatExists folders c then 0 else 1 := by
  cases h1 : sysCatExists folders MediaFolderCategory.aiImage <;>
  cases h2 : sysCatExists folders MediaFolderCategory.aiVideo <;>
  cases h3 : sysCatExists folders MediaFolderCategory.upload <;>
  cases c <;>
  simp [newSystemFolders, SYSTEM_CATEGORIES, List.filterMap_cons, h1, h2, h3,
    countSysCat, List.countP_cons, mkSystemFolder]

theorem sysCatExists_newSystemFolders (fresh : MediaFolderCategory → String) (now : Nat)
    (folders : List MediaFolder) (c : MediaFolderCategory) :
    sysCatExists (newSystemFolders fresh now folders) c = !(sysCatExists folders c) := by
  have hc := countSysCat_newSystemFolders fresh now folders c
  cases h : sysCatExists folders c with
  | true =>
    rw [h] at hc
    simp only [if_true] at hc
    simp only [Bool.not_true]
    rw [← Bool.not_eq_true, sysCatExists_iff_countSysCat, hc]
    simp
  | false =>
    rw [h] at hc
    simp only [Bool.false_eq_true, if_false] at hc
    simp only [Bool.not_false]
    rw [sysCatExists_iff_countSysCat, hc]
    simp

theorem newSystemFolders_after_init (fresh1 fresh2 : MediaFolderCategory → String)
    (now1 now2 : Nat) (folders : List MediaFolder) :
    newSystemFolders fresh2 now2 (folders ++ newSystemFolders fresh1 now1 folders) = [] := by
  have hall : ∀ c, sysCatExists (folders ++ newSystemFolders fresh1 now1 folders) c = true := by
    intro c
    rw [sysCatExists_append, sysCatExists_newSystemFolders]
    cases h : sysCatExists folders c <;> simp [h]
  rw [newSystemFolders, List.filterMap_eq_nil_iff]
  intro cat _
  simp [hall cat.category]

/-- Claim C5: `initSystemFolders` is idempotent, and (over states whose
system-folder categories are not already duplicated, the spec's uniqueness
invariant) the resulting state has exactly one system folder per category of
the fixed category set.  `fresh` and `now` parameters model `generateUUID()`
and `Date.now()`; idempotence holds for any two parameterizations. -/
theorem initSystemFolders_idempotent_unique (s : MediaState)
    (fresh1 : MediaFolderCategory → String) (now1 : Nat)
    (fresh2 : MediaFolderCategory → String) (now2 : Nat)
    (h : ∀ c : MediaFolderCategory, countSysCat s.folders c ≤ 1) :
    initSystemFolders fresh2 now2 (initSystemFolders fresh1 now1 s) =
      initSystemFolders fresh1 now1 s ∧
    (∀ c : MediaFolderCategory,
      countSysCat ((initSystemFolders fresh1 now1 s).folders) c = 1) := by
  constructor
  · rw [initSystemFolders_eq fresh1 now1, initSystemFolders_eq fresh2 now2]
    simp [newSystemFolders_after_init]
  · intro c
    rw [initSystemFolders_eq]
    simp only
    rw [countSysCat_append, countSysCat_newSystemFolders]
    cases hex : sysCatExists s.folders c with
    | true =>
      have hpos : 0 < countSysCat s.folders c :=
        (sysCatExists_iff_countSysCat s.folders c).mp hex
      have hle := h c
      simp only [if_true]
      omega
    | false =>
      have hz : countSysCat s.folders c = 0 := by
        by_contra hne
        have : sysCatExists s.folders c = true :=
          (sysCatExists_iff_countSysCat s.folders c).mpr (Nat.pos_of_ne_zero hne)
        rw [hex] at this
        exact absurd this (by simp)
      simp only [Bool.false_eq_true, if_false]
      omega

def c5state : MediaState :=
  { mediaFiles := [], folders := [], currentFolderId := none, isLoading := false }

/-- A concrete id supply standing in for `generateUUID()`. -/
def c5fresh : MediaFolderCategory → String := fun c =>
  match c with
  | MediaFolderCategory.aiImage => "sys-img"
  | MediaFolderCategory.aiVideo => "sys-vid"
  | MediaFolderCategory.upload => "sys-up"

theorem initSystemFolders_idempotent_unique_witness :
    (∀ c : MediaFolderCategory, countSysCat c5state.folders c ≤ 1) ∧
    (initSystemFolders c5fresh 2 (initSystemFolders c5fresh 1 c5state) =
       initSystemFolders c5fresh 1 c5state ∧
     ∀ c : MediaFolderCategory,
       countSysCat ((initSystemFolders c5fresh 1 c5state).folders) c = 1) :=
  ⟨by decide, initSystemFolders_idempotent_unique c5state c5fresh 1 c5fresh 2 (by decide)⟩

/-- A non-system root folder carrying the legacy name. -/
def legacyAiGenFolder : MediaFolder :=
  { id := "legacy1", name := "AI生成", parentId := none, projectId := none,
    isSystem := false, isAutoCreated := false, category := none, createdAt := 5 }

/-- A state satisfying claim C6's premise: it contains the legacy folder and
no system ai-image folder. -/
def c6state : MediaState :=
  { mediaFiles := [], folders := [legacyAiGenFolder], currentFolderId := none,
    isLoading := false }

/-- Claim C6 failing input, evaluated: on a state containing only the legacy
"AI生成" root folder (and no ai-image system folder), `initSystemFolders`
leaves the legacy folder completely unchanged — still non-system, still
named "AI生成", with no category — and instead appends a fresh ai-image
system folder with a new id.  The in-place promotion the claim (and the
code's own comments) describe never happens: the migration guard also checks
the `newFolders` list built in the same pass, which contains an ai-image
entry exactly when no ai-image system folder exists, so the guard is never
satisfied. -/
theorem initSystemFolders_legacy_migration_dead :
    (initSystemFolders c5fresh 7 c6state).folders =
      [legacyAiGenFolder,
       { id := "sys-img", name := "AI图片", parentId := none, projectId := none,
         isSystem := true, isAutoCreated := false,
         category := some MediaFolderCategory.aiImage, createdAt := 7 },
       { id := "sys-vid", name := "AI视频", parentId := none, projectId := none,
         isSystem := true, isAutoCreated := false,
         category := some MediaFolderCategory.aiVideo, createdAt := 7 },
       { id := "sys-up", name := "上传文件", parentId := none, projectId := none,
         isSystem := true, isAutoCreated := false,
         category := some MediaFolderCategory.upload, createdAt := 7 }] := by decide

-- ==================== Media item operations ====================

/-- Options record of `addMediaFromUrl`. -/
structure AddMediaFromUrlOptions where
  url : String
  name : String
  type : MediaType
  source : MediaSource
  thumbnailUrl : Option String
  duration : Option Nat
  folderId : Option String
  projectId : Option String
deriving DecidableEq, Repr

/-- The synchronous state change of `addMediaFromUrl`: a new item built from
the options is appended; `newId` stands for the generated UUID. -/
def addMediaFromUrl (opts : AddMediaFromUrlOptions) (newId : String)
    (s : MediaState) : MediaState :=
  { s with mediaFiles := s.mediaFiles ++
      [{ id := newId, name := opts.name, type := opts.type, url := some opts.url,
         thumbnailUrl := opts.thumbnailUrl, duration := opts.duration,
         source := opts.source, folderId := opts.folderId,
         projectId := opts.projectId }] }

/-- The guard under which `addMediaFromUrl` spawns its background local-save
task: image/video type and a truthy url starting with http or data:. -/
def addMediaFromUrlSpawnsBg (opts : AddMediaFromUrlOptions) : Bool :=
  (opts.type == MediaType.image || opts.type == MediaType.video) &&
  !(opts.url == "") &&
  (opts.url.startsWith "http" || opts.url.startsWith "data:")

/-- The synchronous state change of `removeMediaFile`: the item with the
given id is filtered out (`projectId` only routes the storage delete). -/
def removeMediaFile (projectId : String) (id : String) (s : MediaState) : MediaState :=
  { s with mediaFiles := s.mediaFiles.filter (fun media => !(media.id == id)) }

/-- The state update the background task of `addMediaFromUrl` applies when
`saveImageToLocal` resolves for the main url: if a local path was produced,
existing items are mapped by id; nothing is ever inserted. -/
def bgSaveUrlComplete (id : String) (url localPath : String) (s : MediaState) : MediaState :=
  if !(localPath == url) && localPath.startsWith "local-image://" then
    { s with mediaFiles := s.mediaFiles.map (fun f =>
        if f.id == id then { f with url := some localPath } else f) }
  else s

/-- The state update the background task applies for the thumbnail url. -/
def bgSaveThumbComplete (id : String) (thumbnailUrl thumbLocalPath : String)
    (s : MediaState) : MediaState :=
  if !(thumbLocalPath == thumbnailUrl) && thumbLocalPath.startsWith "local-image://" then
    { s with mediaFiles := s.mediaFiles.map (fun f =>
        if f.id == id then { f with thumbnailUrl := some thumbLocalPath } else f) }
  else s

/-- Claim C7: the background completion step only maps existing items by id
and never inserts, so after `addMediaFromUrl` inserted item `X` and
`removeMediaFile` removed it, a later background completion for `X` leaves
the state unchanged — in particular `X` does not reappear. -/
theorem bgSaveComplete_never_resurrects (s : MediaState)
    (opts : AddMediaFromUrlOptions) (X pid url localPath thumbUrl thumbLocalPath : String) :
    (∀ t : MediaState, (bgSaveUrlComplete X url localPath t).mediaFiles.map MediaFile.id =
      t.mediaFiles.map MediaFile.id) ∧
    (∀ t : MediaState, (bgSaveThumbComplete X thumbUrl thumbLocalPath t).mediaFiles.map
      MediaFile.id = t.mediaFiles.map MediaFile.id) ∧
    X ∉ (removeMediaFile pid X (addMediaFromUrl opts X s)).mediaFiles.map MediaFile.id ∧
    bgSaveUrlComplete X url localPath (removeMediaFile pid X (addMediaFromUrl opts X s)) =
      removeMediaFile pid X (addMediaFromUrl opts X s) ∧
    bgSaveThumbComplete X thumbUrl thumbLocalPath
        (bgSaveUrlComplete X url localPath (removeMediaFile pid X (addMediaFromUrl opts X s))) =
      removeMediaFile pid X (addMediaFromUrl opts X s) := by
  have hids1 : ∀ t : MediaState, (bgSaveUrlComplete X url localPath t).mediaFiles.map
      MediaFile.id = t.mediaFiles.map MediaFile.id := by
    intro t
    unfold bgSaveUrlComplete
    by_cases hg : (!(localPath == url) && localPath.startsWith "local-image://") = true
    · rw [if_pos hg]
      simp only [List.map_map]
      refine List.map_congr_left ?_
      intro f _
      by_cases hf : f.id = X
      · simp [hf]
      · simp [hf]
    · rw [if_neg hg]
  have hids2 : ∀ t : MediaState, (bgSaveThumbComplete X thumbUrl thumbLocalPath t).mediaFiles.map
      MediaFile.id = t.mediaFiles.map MediaFile.id := by
    intro t
    unfold bgSaveThumbComplete
    by_cases hg : (!(thumbLocalPath == thumbUrl) && thumbLocalPath.startsWith
        "local-image://") = true
    · rw [if_pos hg]
      simp only [List.map_map]
      refine List.map_congr_left ?_
      intro f _
      by_cases hf : f.id = X
      · simp [hf]
      · simp [hf]
    · rw [if_neg hg]
  have habsent : ∀ m ∈ (removeMediaFile pid X (addMediaFromUrl opts X s)).mediaFiles,
      (m.id == X) = false := by
    intro m hm
    have := List.mem_filter.mp hm
    simpa using this.2
  have hXnot : X ∉ (removeMediaFile pid X (addMediaFromUrl opts X s)).mediaFiles.map
      MediaFile.id := by
    intro hmem
    rcases List.mem_map.mp hmem with ⟨m, hm, hid⟩
    have := habsent m hm
    rw [hid] at this
    simp at this
  have hfix1 : bgSaveUrlComplete X url localPath
      (removeMediaFile pid X (addMediaFromUrl opts X s)) =
      removeMediaFile pid X (addMediaFromUrl opts X s) := by
    unfold bgSaveUrlComplete
    by_cases hg : (!(localPath == url) && localPath.startsWith "local-image://") = true
    · rw [if_pos hg]
      refine MediaState.ext4 ?_ rfl rfl rfl
      simp only
      have : ∀ m ∈ (removeMediaFile pid X (addMediaFromUrl opts X s)).mediaFiles,
          (if m.id == X then { m with url := some localPath } else m) = m := by
        intro m hm
        rw [habsent m hm]
        simp
      rw [List.map_congr_left this]
      simp
    · rw [if_neg hg]
  have hfix2 : bgSaveThumbComplete X thumbUrl thumbLocalPath
      (removeMediaFile pid X (addMediaFromUrl opts X s)) =
      removeMediaFile pid X (addMediaFromUrl opts X s) := by
    unfold bgSaveThumbComplete
    by_cases hg : (!(thumbLocalPath == thumbUrl) && thumbLocalPath.startsWith
        "local-image://") = true
    · rw [if_pos hg]
      refine MediaState.ext4 ?_ rfl rfl rfl
      simp only
      have : ∀ m ∈ (removeMediaFile pid X (addMediaFromUrl opts X s)).mediaFiles,
          (if m.id == X then { m with thumbnailUrl := some thumbLocalPath } else m) = m := by
        intro m hm
        rw [habsent m hm]
        simp
      rw [List.map_congr_left this]
      simp
    · rw [if_neg hg]
  exact ⟨hids1, hids2, hXnot, hfix1, by rw [hfix1, hfix2]⟩

/-- `assignProjectToUnscoped` from the source. -/
def assignProjectToUnscoped (projectId : String) (s : MediaState) : MediaState :=
  { s with
    mediaFiles := s.mediaFiles.map (fun media =>
      if strTruthy media.projectId then media else { media with projectId := some projectId })
    folders := s.folders.map (fun folder =>
      if strTruthy folder.projectId || folder.isSystem then folder
      else { folder with projectId := some projectId }) }

/-- Claim C8: after `assignProjectToUnscoped p`, every media item that had no
(absent or empty) `projectId` carries `projectId = p`; every item that
already had a nonempty `projectId` is unchanged; every non-system folder
that had no `projectId` carries `p`; folders that already had a nonempty
`projectId` and system folders are unchanged; selection and loading state
are untouched. -/
theorem assignProjectToUnscoped_spec (s : MediaState) (p : String) :
    (assignProjectToUnscoped p s).mediaFiles = s.mediaFiles.map (fun m =>
      if m.projectId = none ∨ m.projectId = some "" then { m with projectId := some p }
      else m) ∧
    (assignProjectToUnscoped p s).folders = s.folders.map (fun f =>
      if f.isSystem = true ∨ ¬(f.projectId = none ∨ f.projectId = some "") then f
      else { f with projectId := some p }) ∧
    (assignProjectToUnscoped p s).currentFolderId = s.currentFolderId ∧
    (assignProjectToUnscoped p s).isLoading = s.isLoading := by
  have htruthy : ∀ o : Option String, strTruthy o = false ↔ (o = none ∨ o = some "") := by
    intro o
    cases o with
    | none => simp [strTruthy]
    | some v => simp [strTruthy]
  refine ⟨?_, ?_, rfl, rfl⟩
  · unfold assignProjectToUnscoped
    simp only
    refine List.map_congr_left ?_
    intro m _
    by_cases hm : m.projectId = none ∨ m.projectId = some ""
    · rw [if_pos hm, ((htruthy m.projectId).mpr hm)]
      simp
    · rw [if_neg hm]
      have : strTruthy m.projectId = true := by
        rcases ht : strTruthy m.projectId with _ | _
        · exact absurd ((htruthy m.projectId).mp ht) hm
        · rfl
      rw [this]
      simp
  · unfold assignProjectToUnscoped
    simp only
    refine List.map_congr_left ?_
    intro f _
    by_cases hsys : f.isSystem = true
    · rw [if_pos (Or.inl hsys), hsys]
      simp
    · by_cases hf : f.projectId = none ∨ f.projectId = some ""
      · have hcond : ¬(f.isSystem = true ∨ ¬(f.projectId = none ∨ f.projectId = some "")) := by
          rintro (h | h)
          · exact hsys h
          · exact h hf
        rw [if_neg hcond, ((htruthy f.projectId).mpr hf)]
        simp [Bool.eq_false_iff.mpr hsys]
      · rw [if_pos (Or.inr (fun h => hf h))]
        have : strTruthy f.projectId = true := by
          rcases ht : strTruthy f.projectId with _ | _
          · exact absurd ((htruthy f.projectId).mp ht) hf
          · rfl
        rw [this]
        simp

/-- The first step of `loadProjectMedia`: `set({ isLoading: true })`. -/
def loadProjectMediaStart (s : MediaState) : MediaState := { s with isLoading := true }

/-- The remainder of `loadProjectMedia`, parameterized over the outcome of
`storageService.loadAllMediaFiles`: on success every loaded item is stamped
with the project id and replaces `mediaFiles`; on rejection the error is
caught and `mediaFiles` is left alone; the `finally` block then sets
`isLoading := false` in both outcomes. -/
def loadProjectMediaFinish (projectId : String)
    (result : Except String (List MediaFile)) (s : MediaState) : MediaState :=
  match result with
  | Except.ok mediaItems =>
    let scopedMediaItems := mediaItems.map (fun item => { item with projectId := some projectId })
    { { s with mediaFiles := scopedMediaItems } with isLoading := false }
  | Except.error _ => { s with isLoading := false }

/-- `loadProjectMedia` from the source, as the composition of its two steps. -/
def loadProjectMedia (projectId : String) (result : Except String (List MediaFile))
    (s : MediaState) : MediaState :=
  loadProjectMediaFinish projectId result (loadProjectMediaStart s)

/-- Claim C9: `loadProjectMedia` first sets `isLoading = true`; on completion
`isLoading = false` holds for both outcomes; on success the loaded items,
each stamped with the project id, replace `mediaFiles`; on rejection
`mediaFiles` is left untouched. -/
theorem loadProjectMedia_spec (s : MediaState) (pid : String)
    (result : Except String (List MediaFile)) :
    (loadProjectMediaStart s).isLoading = true ∧
    (loadProjectMedia pid result s).isLoading = false ∧
    (match result with
     | Except.ok items => (loadProjectMedia pid result s).mediaFiles =
         items.map (fun item => { item with projectId := some pid })
     | Except.error _ => (loadProjectMedia pid result s).mediaFiles = s.mediaFiles) := by
  refine ⟨rfl, ?_, ?_⟩
  · cases result <;> rfl
  · cases result <;> rfl
